import Mathlib

/-!
# Verification of the SwiftInvoice application core

Shallow embedding of the invoice application's pure logic:
* `calculations.js` — financial calculations (`calculateTotal`, `calculateTax`, …)
* `state.js` — in-memory invoice state (`addItem`, `updateItem`, `loadState`,
  `generateInvoiceNumber`, …)
* `storage.js` — the persisted invoice collection (`saveInvoice`, `getInvoice`,
  `deleteInvoice`, `importInvoices`, …)

JavaScript numbers are modelled as rationals (`ℚ`); the JS falsy-fallback
`x || d` on numbers (`parseFloat(x) || d`) is modelled by `jsNumOr`, where an
absent/non-numeric value is `none` and `0` is falsy; on strings the empty
string is falsy (`jsStrOr`).  The browser `localStorage` round-trips JSON
faithfully, so the persisted collection is modelled as the plain list of
stored invoices.
-/

/-- `parseFloat(x) || d` for an optional numeric input: absent (or NaN) and `0`
both fall through to the default `d`. -/
def jsNumOr (v : Option ℚ) (d : ℚ) : ℚ :=
  match v with
  | none => d
  | some x => if x = 0 then d else x

/-- `s || d` for an optional string: absent and the empty string fall through. -/
def jsStrOr (v : Option String) (d : String) : String :=
  match v with
  | none => d
  | some s => if s = "" then d else s

/-- Business/client contact block (`state.business`, `state.client`). -/
structure Business where
  name : String
  phone : String
  address : String
deriving DecidableEq

/-- One invoice line item (`id, description, quantity, price, total`). -/
structure Item where
  id : Nat
  description : String
  quantity : ℚ
  price : ℚ
  total : ℚ
deriving DecidableEq

/-- The central mutable state of `state.js`. -/
structure AppState where
  business : Business
  client : Business
  items : List Item
  taxRate : ℚ
  discount : ℚ
  subtotal : ℚ
  total : ℚ
  invoiceNumber : String
  issueDate : String
  dueDate : String
  nextItemId : Nat
deriving DecidableEq

/-! ## calculations.js -/

/-- Result record of `calculateTotal`. -/
structure Totals where
  subtotal : ℚ
  tax : ℚ
  discount : ℚ
  total : ℚ
deriving DecidableEq

/-- `calculateTax(subtotal, taxRate) = (sub * rate) / 100` with the
`parseFloat(x) || 0` coercion on both arguments. -/
def calculateTax (subtotal taxRate : ℚ) : ℚ :=
  let sub := if subtotal = 0 then 0 else subtotal
  let rate := if taxRate = 0 then 0 else taxRate
  (sub * rate) / 100

/-- `calculateTotal(subtotal, taxRate, discount)`: tax on the subtotal, minus
the discount, clamped below at `0` (`Math.max(0, total)`). -/
def calculateTotal (subtotal taxRate discount : ℚ) : Totals :=
  let sub := if subtotal = 0 then 0 else subtotal
  let tax := calculateTax sub taxRate
  let disc := if discount = 0 then 0 else discount
  let total := sub + tax - disc
  { subtotal := sub, tax := tax, discount := disc, total := max 0 total }

/-- `calculateItemTotal(quantity, price) = qty * price` after coercion. -/
def calculateItemTotal (quantity price : ℚ) : ℚ :=
  let qty := if quantity = 0 then 0 else quantity
  let prc := if price = 0 then 0 else price
  qty * prc

/-! ## state.js -/

/-- Input record for `addItem` — every field may be absent. -/
structure ItemInput where
  description : Option String
  quantity : Option ℚ
  price : Option ℚ

/-- Update record for `updateItem` — only fields that are `!== undefined`
are applied. -/
structure ItemUpdates where
  description : Option String
  quantity : Option ℚ
  price : Option ℚ

/-- `addItem(item)`: builds the new item with `id = nextItemId++`,
`quantity = parseFloat(item.quantity) || 1`, `price = parseFloat(item.price) || 0`,
recomputes its total, and appends it to `state.items`.  Returns the updated
state together with the created item. -/
def addItem (item : ItemInput) (s : AppState) : AppState × Item :=
  let quantity := jsNumOr item.quantity 1
  let price := jsNumOr item.price 0
  let newItem : Item :=
    { id := s.nextItemId
      description := jsStrOr item.description ""
      quantity := quantity
      price := price
      total := quantity * price }
  ({ s with items := s.items ++ [newItem], nextItemId := s.nextItemId + 1 }, newItem)

/-- Apply `updateItem`'s field assignments to one item: each field present on
`updates` overwrites (numbers through `parseFloat(u) || 0`), then the item
total is recomputed. -/
def applyUpdates (u : ItemUpdates) (it : Item) : Item :=
  let d := match u.description with
    | none => it.description
    | some s => s
  let q := match u.quantity with
    | none => it.quantity
    | some x => if x = 0 then 0 else x
  let p := match u.price with
    | none => it.price
    | some x => if x = 0 then 0 else x
  { it with description := d, quantity := q, price := p, total := q * p }

/-- `state.items.find(i => i.id === itemId)` followed by in-place mutation:
only the first item with the given id is changed. -/
def updateFirst (itemId : Nat) (f : Item → Item) : List Item → List Item
  | [] => []
  | it :: rest =>
    if it.id = itemId then f it :: rest else it :: updateFirst itemId f rest

/-- `updateItem(itemId, updates)` on the state. -/
def updateItem (itemId : Nat) (u : ItemUpdates) (s : AppState) : AppState :=
  { s with items := updateFirst itemId (applyUpdates u) s.items }

/-- `state.items.filter(item => item.id !== itemId)`. -/
def removeItem (itemId : Nat) (s : AppState) : AppState :=
  { s with items := s.items.filter (fun it => it.id ≠ itemId) }

/-- `Math.max(...items.map(item => item.id))` for a non-empty list
(naturals, so folding from `0` agrees with the spread maximum). -/
def maxItemId (items : List Item) : Nat :=
  (items.map Item.id).foldr max 0

/-- Incoming record for `loadState` — every field may be absent on the
parsed JSON object. -/
structure InvoiceData where
  business : Option Business
  client : Option Business
  items : Option (List Item)
  taxRate : Option ℚ
  discount : Option ℚ
  subtotal : Option ℚ
  total : Option ℚ
  invoiceNumber : Option String
  issueDate : Option String
  dueDate : Option String

/-- `loadState(invoiceData)`: field-by-field `||` fallbacks exactly as in the
source — objects fall back to the current state, `items` to `[]`, the four
numeric fields to `0`, the three string fields to the current state — then
`nextItemId` is recomputed from the loaded items when they are non-empty
(and left untouched otherwise). -/
def loadState (d : InvoiceData) (s : AppState) : AppState :=
  let items := d.items.getD []
  { business := d.business.getD s.business
    client := d.client.getD s.client
    items := items
    taxRate := jsNumOr d.taxRate 0
    discount := jsNumOr d.discount 0
    subtotal := jsNumOr d.subtotal 0
    total := jsNumOr d.total 0
    invoiceNumber := jsStrOr d.invoiceNumber s.invoiceNumber
    issueDate := jsStrOr d.issueDate s.issueDate
    dueDate := jsStrOr d.dueDate s.dueDate
    nextItemId := if items.length > 0 then maxItemId items + 1 else s.nextItemId }

/-! ## storage.js -/

/-- A saved invoice record: the invoice payload fields plus nothing else.
`savedAt` is added by `saveInvoice` (see `StoredInvoice`). -/
structure InvoiceRecord where
  business : Business
  client : Business
  items : List Item
  taxRate : ℚ
  discount : ℚ
  subtotal : ℚ
  total : ℚ
  invoiceNumber : String
  issueDate : String
  dueDate : String
deriving DecidableEq

/-- What actually sits in `localStorage`: the invoice payload spread together
with the `savedAt` timestamp (`{...invoiceData, savedAt}`). -/
structure StoredInvoice where
  record : InvoiceRecord
  savedAt : String
deriving DecidableEq

/-- `inv.invoiceNumber` of a stored entry. -/
def invNumber (st : StoredInvoice) : String :=
  st.record.invoiceNumber

/-- `getAllInvoices()` — the parsed contents of `localStorage` (JSON
round-trip assumed faithful). -/
def getAllInvoices (store : List StoredInvoice) : List StoredInvoice :=
  store

/-- `Array.prototype.findIndex`, with `none` for JS's `-1` sentinel. -/
def jsFindIndex {α : Type} (p : α → Bool) : List α → Option Nat
  | [] => none
  | x :: xs => if p x then some 0 else (jsFindIndex p xs).map (· + 1)

/-- `saveInvoice(invoiceData)` at timestamp `ts`: build
`{...invoiceData, savedAt: ts}`, then replace the entry at the existing
index of the same invoice number, or push when there is none. -/
def saveInvoice (invoiceData : InvoiceRecord) (ts : String)
    (invoices : List StoredInvoice) : List StoredInvoice :=
  let invoiceToSave : StoredInvoice := ⟨invoiceData, ts⟩
  match jsFindIndex (fun inv => invNumber inv == invoiceData.invoiceNumber) invoices with
  | some i => invoices.set i invoiceToSave
  | none => invoices ++ [invoiceToSave]

/-- `getInvoice(invoiceNumber)`: `invoices.find(...) || null`. -/
def getInvoice (invoiceNumber : String) (invoices : List StoredInvoice) :
    Option StoredInvoice :=
  invoices.find? (fun inv => invNumber inv == invoiceNumber)

/-- `deleteInvoice(invoiceNumber)`: keep every entry whose number differs. -/
def deleteInvoice (invoiceNumber : String) (invoices : List StoredInvoice) :
    List StoredInvoice :=
  invoices.filter (fun inv => invNumber inv != invoiceNumber)

/-- The parse result of the imported file's text. -/
inductive ParsedJson : Type
  | array (invoices : List StoredInvoice)
  | nonArray

/-- The merge loop of `importInvoices`: walk the imported entries, appending
each one whose invoice number is not yet in the merged collection. -/
def mergeImported (existing imported : List StoredInvoice) : List StoredInvoice :=
  imported.foldl
    (fun merged imp =>
      match jsFindIndex (fun inv => invNumber inv == invNumber imp) merged with
      | some _ => merged
      | none => merged ++ [imp])
    existing

/-- `importInvoices` after the file has been read and parsed: a non-array
payload throws `Invalid file format`; an array is merged into the existing
collection. -/
def importInvoices (parsed : ParsedJson) (existing : List StoredInvoice) :
    Except String (List StoredInvoice) :=
  match parsed with
  | .nonArray => .error "Invalid file format"
  | .array imported => .ok (mergeImported existing imported)

/-- The stored collection after an import attempt: on failure the rejection
happens before `localStorage.setItem`, so the collection is untouched. -/
def importResultStore (parsed : ParsedJson) (existing : List StoredInvoice) :
    List StoredInvoice :=
  match importInvoices parsed existing with
  | .error _ => existing
  | .ok merged => merged

/-! ## Invoice-number generation (`state.js`, version 2.0) -/

/-- `parseInt` on a non-empty run of decimal digits. -/
def parseIntDigits (cs : List Char) : Nat :=
  cs.foldl (fun acc c => acc * 10 + (c.toNat - '0'.toNat)) 0

/-- Try to match the regex `INV-(\d+)` anchored at the head of the character
list: the literal `INV-` followed by at least one digit, capturing the
maximal digit run. -/
def matchInvAt : List Char → Option Nat
  | 'I' :: 'N' :: 'V' :: '-' :: rest =>
    let ds := rest.takeWhile Char.isDigit
    if ds.isEmpty then none else some (parseIntDigits ds)
  | _ => none

/-- `String.prototype.match(/INV-(\d+)/)`: first position where the pattern
matches, scanning left to right. -/
def searchInv : List Char → Option Nat
  | [] => none
  | c :: rest =>
    match matchInvAt (c :: rest) with
    | some n => some n
    | none => searchInv rest

/-- `inv.invoiceNumber.match(/INV-(\d+)/)`, with the `match ? parseInt(match[1]) : 0`
fallback of the source: a non-matching number contributes `0`. -/
def extractInvNum (s : String) : Nat :=
  match searchInv s.data with
  | some n => n
  | none => 0

/-- `String(n).padStart(3, '0')`. -/
def padStart3 (s : String) : String :=
  if s.length ≥ 3 then s else String.mk (List.replicate (3 - s.length) '0') ++ s

/-- `generateInvoiceNumber()` (the storage-aware version): scan the persisted
invoices' numbers, take the maximum extracted value, increment, and zero-pad
to at least three digits; with no persisted invoices the result is
`INV-001`. -/
def generateInvoiceNumber (stored : List StoredInvoice) : String :=
  if stored.length > 0 then
    let numbers := stored.map (fun inv => extractInvNum (invNumber inv))
    let maxNumber := numbers.foldr max 0
    let nextNumber := maxNumber + 1
    "INV-" ++ padStart3 (Nat.repr nextNumber)
  else
    "INV-001"

/-! ## Concrete sample values -/

/-- The empty contact block of the initial state. -/
def emptyBusiness : Business :=
  ⟨"", "", ""⟩

/-- A bare line item with a given id. -/
def mkItem (i : Nat) : Item :=
  ⟨i, "", 1, 0, 0⟩

/-- The initial in-memory state of `state.js` (issue date left abstract). -/
def initialState : AppState :=
  { business := emptyBusiness
    client := emptyBusiness
    items := []
    taxRate := 0
    discount := 0
    subtotal := 0
    total := 0
    invoiceNumber := "INV-001"
    issueDate := "2026-10-11"
    dueDate := ""
    nextItemId := 1 }

/-- A bare invoice payload carrying only its number. -/
def mkRecord (n : String) : InvoiceRecord :=
  { business := emptyBusiness
    client := emptyBusiness
    items := []
    taxRate := 0
    discount := 0
    subtotal := 0
    total := 0
    invoiceNumber := n
    issueDate := ""
    dueDate := "" }

/-- A bare stored entry carrying only its number. -/
def mkStored (n : String) : StoredInvoice :=
  ⟨mkRecord n, "2026-01-01T00:00:00.000Z"⟩

/-- An incoming `loadState` record with every field absent. -/
def emptyInvoiceData : InvoiceData :=
  ⟨none, none, none, none, none, none, none, none, none, none⟩

/-! ## Recursive characterisations used in proofs -/

/-- Replace the first entry whose number is `n` by `toSave`, appending when
there is none — the recursive unfolding of `saveInvoice`'s
findIndex-then-set-or-push shape. -/
def replaceFirst (toSave : StoredInvoice) (n : String) :
    List StoredInvoice → List StoredInvoice
  | [] => [toSave]
  | st :: rest =>
    if invNumber st == n then toSave :: rest else st :: replaceFirst toSave n rest

/-- The entries that `mergeImported`'s loop appends after the existing
collection `acc`, in order. -/
def newEntries (acc : List StoredInvoice) : List StoredInvoice → List StoredInvoice
  | [] => []
  | imp :: rest =>
    match jsFindIndex (fun inv => invNumber inv == invNumber imp) acc with
    | some _ => newEntries acc rest
    | none => imp :: newEntries (acc ++ [imp]) rest

/-! ## Helper lemmas -/

theorem if_eq_zero_id (x : ℚ) : (if x = 0 then (0 : ℚ) else x) = x := by
  split_ifs with h
  · exact h.symm
  · rfl

theorem jsFindIndex_eq_none_iff {α : Type} (p : α → Bool) (l : List α) :
    jsFindIndex p l = none ↔ ∀ x ∈ l, ¬ p x := by
  induction l with
  | nil => simp [jsFindIndex]
  | cons a as ih =>
    by_cases h : p a
    · simp [jsFindIndex, h]
    · simp [jsFindIndex, h, ih]

theorem jsFindIndex_num_none_iff (n : String) (l : List StoredInvoice) :
    jsFindIndex (fun inv => invNumber inv == n) l = none ↔ n ∉ l.map invNumber := by
  rw [jsFindIndex_eq_none_iff]
  constructor
  · intro h hmem
    rcases List.mem_map.mp hmem with ⟨x, hx, hxn⟩
    exact h x hx (by simp [hxn])
  · intro h x hx hpx
    exact h (List.mem_map.mpr ⟨x, hx, by simpa using hpx⟩)

/-! ## C1 -/

/-- C1: for every `subtotal ≥ 0`, `rate ≥ 0` and any `discount`,
`calculateTotal` returns a record whose `total` is
`max 0 (subtotal + subtotal*rate/100 - discount)`, hence never negative;
concretely `calculateTotal 100 10 5 = ⟨100, 10, 5, 105⟩`. -/
theorem calculateTotal_total_clamped (subtotal taxRate discount : ℚ)
    (hsub : 0 ≤ subtotal) (hrate : 0 ≤ taxRate) :
    (calculateTotal subtotal taxRate discount).total
      = max 0 (subtotal + subtotal * taxRate / 100 - discount) ∧
    0 ≤ (calculateTotal subtotal taxRate discount).total ∧
    calculateTotal 100 10 5 = ⟨100, 10, 5, 105⟩ := by
  refine ⟨?_, ?_, ?_⟩
  · simp [calculateTotal, calculateTax, if_eq_zero_id]
  · simp [calculateTotal, calculateTax, if_eq_zero_id]
  · simp [calculateTotal, calculateTax, Totals.mk.injEq]
    norm_num

/-- Witness for `calculateTotal_total_clamped` at `(100, 10, 5)`. -/
theorem calculateTotal_total_clamped_witness :
    (calculateTotal 100 10 5).total = max 0 (100 + 100 * 10 / 100 - 5) ∧
    0 ≤ (calculateTotal 100 10 5).total ∧
    calculateTotal 100 10 5 = ⟨100, 10, 5, 105⟩ :=
  calculateTotal_total_clamped 100 10 5 (by norm_num) (by norm_num)

/-! ## saveInvoice via replaceFirst -/

theorem saveInvoice_eq_replaceFirst (r : InvoiceRecord) (ts : String)
    (store : List StoredInvoice) :
    saveInvoice r ts store = replaceFirst ⟨r, ts⟩ r.invoiceNumber store := by
  induction store with
  | nil => rfl
  | cons st rest ih =>
    cases h : invNumber st == r.invoiceNumber with
    | true => simp [saveInvoice, jsFindIndex, replaceFirst, h]
    | false =>
      cases hr : jsFindIndex (fun inv => invNumber inv == r.invoiceNumber) rest with
      | none =>
        have hrest : replaceFirst ⟨r, ts⟩ r.invoiceNumber rest = rest ++ [⟨r, ts⟩] := by
          rw [← ih]
          simp [saveInvoice, hr]
        simp [saveInvoice, jsFindIndex, replaceFirst, h, hr, hrest]
      | some i =>
        have hrest : replaceFirst ⟨r, ts⟩ r.invoiceNumber rest = rest.set i ⟨r, ts⟩ := by
          rw [← ih]
          simp [saveInvoice, hr]
        simp [saveInvoice, jsFindIndex, replaceFirst, h, hr, hrest]

theorem getInvoice_replaceFirst_self (toSave : StoredInvoice) (n : String)
    (h : invNumber toSave = n) (l : List StoredInvoice) :
    getInvoice n (replaceFirst toSave n l) = some toSave := by
  induction l with
  | nil => simp [replaceFirst, getInvoice, List.find?, h]
  | cons st rest ih =>
    by_cases hst : invNumber st == n
    · simp [replaceFirst, hst, getInvoice, List.find?, h]
    · simp only [replaceFirst, hst, if_false]
      simpa [getInvoice, List.find?, hst] using ih

theorem replaceFirst_length_of_mem (toSave : StoredInvoice) (n : String)
    (l : List StoredInvoice) (h : ∃ e ∈ l, invNumber e = n) :
    (replaceFirst toSave n l).length = l.length := by
  induction l with
  | nil => simp at h
  | cons st rest ih =>
    cases hst : invNumber st == n with
    | true => simp [replaceFirst, hst]
    | false =>
      rcases h with ⟨e, he, hen⟩
      rcases List.mem_cons.mp he with rfl | he'
      · simp [hen] at hst
      · have hlen := ih ⟨e, he', hen⟩
        simp [replaceFirst, hst, hlen]

/-! ## C2 -/

/-- C2: saving an invoice and then looking up its number returns exactly the
saved payload together with the `savedAt` timestamp; and when the number is
already present, saving replaces instead of appending, leaving the length of
`getAllInvoices` unchanged. -/
theorem saveInvoice_getInvoice_roundtrip (r : InvoiceRecord) (ts : String)
    (store : List StoredInvoice) :
    getInvoice r.invoiceNumber (saveInvoice r ts store) = some ⟨r, ts⟩ ∧
    ((∃ e ∈ getAllInvoices store, invNumber e = r.invoiceNumber) →
      (getAllInvoices (saveInvoice r ts store)).length
        = (getAllInvoices store).length) := by
  constructor
  · rw [saveInvoice_eq_replaceFirst]
    exact getInvoice_replaceFirst_self ⟨r, ts⟩ r.invoiceNumber rfl store
  · intro h
    rw [getAllInvoices, getAllInvoices, saveInvoice_eq_replaceFirst]
    exact replaceFirst_length_of_mem ⟨r, ts⟩ r.invoiceNumber store h

/-- Witness for `saveInvoice_getInvoice_roundtrip`: re-saving number
`INV-001` into a store that already holds it. -/
theorem saveInvoice_getInvoice_roundtrip_witness :
    getInvoice (mkRecord "INV-001").invoiceNumber
        (saveInvoice (mkRecord "INV-001") "2026-02-02T00:00:00.000Z" [mkStored "INV-001"])
      = some ⟨mkRecord "INV-001", "2026-02-02T00:00:00.000Z"⟩ ∧
    (getAllInvoices (saveInvoice (mkRecord "INV-001") "2026-02-02T00:00:00.000Z"
        [mkStored "INV-001"])).length
      = (getAllInvoices [mkStored "INV-001"]).length := by
  have h := saveInvoice_getInvoice_roundtrip (mkRecord "INV-001")
    "2026-02-02T00:00:00.000Z" [mkStored "INV-001"]
  exact ⟨h.1, h.2 ⟨mkStored "INV-001", by simp [getAllInvoices], by
    simp [mkStored, mkRecord, invNumber]⟩⟩

/-! ## C9 -/

theorem replaceFirst_append_sandwich (toSave : StoredInvoice) (n : String)
    (pre : List StoredInvoice) (hit : StoredInvoice) (post : List StoredInvoice)
    (hpre : ∀ e ∈ pre, invNumber e ≠ n) (hhit : invNumber hit = n) :
    replaceFirst toSave n (pre ++ hit :: post) = pre ++ toSave :: post := by
  induction pre with
  | nil => simp [replaceFirst, hhit]
  | cons a as ih =>
    have ha : (invNumber a == n) = false :=
      beq_eq_false_iff_ne.mpr (hpre a (List.mem_cons_self a as))
    have ih' := ih (fun e he => hpre e (List.mem_cons_of_mem a he))
    simp [replaceFirst, ha, ih']

/-- C9: saving an invoice whose number already occurs replaces the entry at
its (first) existing position, leaving every other entry in place; deleting
preserves the relative order of the remaining entries (the result is a
sublist of the original collection). -/
theorem saveInvoice_in_place_delete_keeps_order :
    (∀ (r : InvoiceRecord) (ts : String) (pre : List StoredInvoice)
        (hit : StoredInvoice) (post : List StoredInvoice),
      (∀ e ∈ pre, invNumber e ≠ r.invoiceNumber) → invNumber hit = r.invoiceNumber →
      saveInvoice r ts (pre ++ hit :: post)
        = pre ++ (⟨r, ts⟩ : StoredInvoice) :: post) ∧
    (∀ (n : String) (store : List StoredInvoice),
      (deleteInvoice n store).Sublist store) := by
  constructor
  · intro r ts pre hit post hpre hhit
    rw [saveInvoice_eq_replaceFirst]
    exact replaceFirst_append_sandwich _ _ pre hit post hpre hhit
  · intro n store
    exact List.filter_sublist store

/-- Witness for `saveInvoice_in_place_delete_keeps_order`: re-saving
`INV-002` in the middle of a three-entry store. -/
theorem saveInvoice_in_place_delete_keeps_order_witness :
    saveInvoice (mkRecord "INV-002") "2026-02-02T00:00:00.000Z"
        ([mkStored "INV-001"] ++ mkStored "INV-002" :: [mkStored "INV-003"])
      = [mkStored "INV-001"]
        ++ (⟨mkRecord "INV-002", "2026-02-02T00:00:00.000Z"⟩ : StoredInvoice)
          :: [mkStored "INV-003"] :=
  saveInvoice_in_place_delete_keeps_order.1 (mkRecord "INV-002")
    "2026-02-02T00:00:00.000Z" [mkStored "INV-001"] (mkStored "INV-002")
    [mkStored "INV-003"] (by decide) (by decide)

/-! ## C7 -/

theorem deleteInvoice_of_absent (n : String) (store : List StoredInvoice)
    (h : getInvoice n store = none) : deleteInvoice n store = store := by
  rw [deleteInvoice, List.filter_eq_self]
  intro a ha
  have hne := List.find?_eq_none.mp h a ha
  simpa [bne] using hne

theorem deleteInvoice_length_of_mem (n : String) (store : List StoredInvoice)
    (hnodup : (store.map invNumber).Nodup) (h : getInvoice n store ≠ none) :
    (deleteInvoice n store).length + 1 = store.length := by
  induction store with
  | nil => simp [getInvoice] at h
  | cons st rest ih =>
    simp only [List.map_cons, List.nodup_cons] at hnodup
    cases hst : invNumber st == n with
    | true =>
      have hstn : invNumber st = n := beq_iff_eq.mp hst
      have hrest : deleteInvoice n rest = rest := by
        rw [deleteInvoice, List.filter_eq_self]
        intro a ha
        have : invNumber a ≠ n := by
          intro hc
          exact hnodup.1 (hstn ▸ hc ▸ List.mem_map_of_mem invNumber ha)
        simpa [bne] using this
      have hbne : (invNumber st != n) = false := by simp [bne, hst]
      simp only [deleteInvoice] at hrest
      simp [deleteInvoice, List.filter_cons, hbne, hrest]
    | false =>
      have h' : getInvoice n rest ≠ none := by
        simpa [getInvoice, List.find?, hst] using h
      have hlen := ih hnodup.2 h'
      simp only [deleteInvoice, List.filter, bne, hst, Bool.not_false,
        List.length_cons]
      simp only [deleteInvoice, bne] at hlen
      omega
    
theorem getInvoice_deleteInvoice_self (n : String) (store : List StoredInvoice) :
    getInvoice n (deleteInvoice n store) = none := by
  rw [getInvoice, List.find?_eq_none]
  intro a ha
  have hmem := (List.mem_filter.mp ha).2
  simp [bne] at hmem
  simp [hmem]

/-- C7 (amended with pairwise-distinct stored numbers): deleting an absent
number leaves the collection unchanged; deleting a present number shrinks the
collection by exactly one entry; after a delete, looking the number up
returns `none`. -/
theorem deleteInvoice_spec (n : String) (store : List StoredInvoice)
    (hnodup : ((getAllInvoices store).map invNumber).Nodup) :
    (getInvoice n store = none →
      getAllInvoices (deleteInvoice n store) = getAllInvoices store) ∧
    (getInvoice n store ≠ none →
      (getAllInvoices (deleteInvoice n store)).length + 1
        = (getAllInvoices store).length) ∧
    getInvoice n (deleteInvoice n store) = none := by
  exact ⟨fun h => deleteInvoice_of_absent n store h,
    fun h => deleteInvoice_length_of_mem n store hnodup h,
    getInvoice_deleteInvoice_self n store⟩

/-- Witness for `deleteInvoice_spec` on a two-entry store with distinct
numbers. -/
theorem deleteInvoice_spec_witness :
    (getAllInvoices (deleteInvoice "INV-001"
        [mkStored "INV-001", mkStored "INV-002"])).length + 1
      = (getAllInvoices [mkStored "INV-001", mkStored "INV-002"]).length ∧
    getInvoice "INV-001"
        (deleteInvoice "INV-001" [mkStored "INV-001", mkStored "INV-002"]) = none :=
  ⟨(deleteInvoice_spec "INV-001" [mkStored "INV-001", mkStored "INV-002"]
      (by decide)).2.1 (by decide),
   (deleteInvoice_spec "INV-001" [mkStored "INV-001", mkStored "INV-002"]
      (by decide)).2.2⟩

/-- C7 counterexample: on a store holding two entries that share the number
`INV-001`, deleting that number removes both entries, so the length drops by
2, not 1 — the claim's unrestricted quantification over stored collections
fails. -/
theorem deleteInvoice_counterexample :
    getInvoice "INV-001"
        [mkStored "INV-001", ⟨mkRecord "INV-001", "T2"⟩] ≠ none ∧
    (getAllInvoices (deleteInvoice "INV-001"
        [mkStored "INV-001", ⟨mkRecord "INV-001", "T2"⟩])).length
      ≠ (getAllInvoices [mkStored "INV-001", ⟨mkRecord "INV-001", "T2"⟩]).length - 1 := by
  decide

/-! ## C3 -/

/-- C3: invoice numbering scans the stored numbers with the `INV-<digits>`
pattern, takes the maximum extracted value, increments and zero-pads to at
least three digits: `["INV-001","INV-007","INV-003"] → "INV-008"`, the empty
store gives `"INV-001"`, and `INV-041 → INV-042`. -/
theorem generateInvoiceNumber_spec :
    generateInvoiceNumber [mkStored "INV-001", mkStored "INV-007", mkStored "INV-003"]
      = "INV-008" ∧
    generateInvoiceNumber [] = "INV-001" ∧
    generateInvoiceNumber [mkStored "INV-041"] = "INV-042" ∧
    ∀ stored : List StoredInvoice, stored ≠ [] →
      generateInvoiceNumber stored
        = "INV-" ++ padStart3 (Nat.repr
            ((stored.map fun inv => extractInvNum (invNumber inv)).foldr max 0 + 1)) := by
  refine ⟨by decide, by decide, by decide, ?_⟩
  intro stored h
  unfold generateInvoiceNumber
  rw [if_pos (List.length_pos.mpr h)]

/-- Witness for `generateInvoiceNumber_spec` on the one-entry store. -/
theorem generateInvoiceNumber_spec_witness :
    generateInvoiceNumber [mkStored "INV-041"]
      = "INV-" ++ padStart3 (Nat.repr
          (([mkStored "INV-041"].map
            fun inv => extractInvNum (invNumber inv)).foldr max 0 + 1)) :=
  generateInvoiceNumber_spec.2.2.2 [mkStored "INV-041"] (by decide)

/-! ## C4 -/

/-- C4 counterexample: with `taxRate = 5` in memory and an incoming record
with no `taxRate` field, `loadState` resets the rate to the hard default `0`
instead of keeping the current value. -/
theorem loadState_hard_default_counterexample :
    (loadState emptyInvoiceData { initialState with taxRate := 5 }).taxRate
      ≠ ({ initialState with taxRate := 5 } : AppState).taxRate := by
  decide

/-- C4 (amended): on `loadState`, the object fields (`business`, `client`)
and the string metadata fields (`invoiceNumber`, `issueDate`, `dueDate`)
fall back to the current in-memory value when absent, the numeric fields
(`taxRate`, `discount`, `subtotal`, `total`) fall back to the hard default
`0`, and `items` defaults to the empty sequence. -/
theorem loadState_fallbacks (d : InvoiceData) (s : AppState) :
    (d.business = none → (loadState d s).business = s.business) ∧
    (d.client = none → (loadState d s).client = s.client) ∧
    (d.items = none → (loadState d s).items = []) ∧
    (d.taxRate = none → (loadState d s).taxRate = 0) ∧
    (d.discount = none → (loadState d s).discount = 0) ∧
    (d.subtotal = none → (loadState d s).subtotal = 0) ∧
    (d.total = none → (loadState d s).total = 0) ∧
    (d.invoiceNumber = none → (loadState d s).invoiceNumber = s.invoiceNumber) ∧
    (d.issueDate = none → (loadState d s).issueDate = s.issueDate) ∧
    (d.dueDate = none → (loadState d s).dueDate = s.dueDate) := by
  refine ⟨?_, ?_, ?_, ?_, ?_, ?_, ?_, ?_, ?_, ?_⟩ <;>
    · intro h
      simp [loadState, h, jsNumOr, jsStrOr]

/-- Witness for `loadState_fallbacks`: the all-absent incoming record on the
initial state. -/
theorem loadState_fallbacks_witness :
    (loadState emptyInvoiceData initialState).business = initialState.business ∧
    (loadState emptyInvoiceData initialState).client = initialState.client ∧
    (loadState emptyInvoiceData initialState).items = [] ∧
    (loadState emptyInvoiceData initialState).taxRate = 0 ∧
    (loadState emptyInvoiceData initialState).discount = 0 ∧
    (loadState emptyInvoiceData initialState).subtotal = 0 ∧
    (loadState emptyInvoiceData initialState).total = 0 ∧
    (loadState emptyInvoiceData initialState).invoiceNumber = initialState.invoiceNumber ∧
    (loadState emptyInvoiceData initialState).issueDate = initialState.issueDate ∧
    (loadState emptyInvoiceData initialState).dueDate = initialState.dueDate :=
  ⟨(loadState_fallbacks emptyInvoiceData initialState).1 rfl,
   (loadState_fallbacks emptyInvoiceData initialState).2.1 rfl,
   (loadState_fallbacks emptyInvoiceData initialState).2.2.1 rfl,
   (loadState_fallbacks emptyInvoiceData initialState).2.2.2.1 rfl,
   (loadState_fallbacks emptyInvoiceData initialState).2.2.2.2.1 rfl,
   (loadState_fallbacks emptyInvoiceData initialState).2.2.2.2.2.1 rfl,
   (loadState_fallbacks emptyInvoiceData initialState).2.2.2.2.2.2.1 rfl,
   (loadState_fallbacks emptyInvoiceData initialState).2.2.2.2.2.2.2.1 rfl,
   (loadState_fallbacks emptyInvoiceData initialState).2.2.2.2.2.2.2.2.1 rfl,
   (loadState_fallbacks emptyInvoiceData initialState).2.2.2.2.2.2.2.2.2 rfl⟩

/-! ## C5 -/

theorem maxItemId_cons (a : Item) (as : List Item) :
    maxItemId (a :: as) = max a.id (maxItemId as) := by
  simp [maxItemId]

theorem le_maxItemId (items : List Item) (it : Item) (h : it ∈ items) :
    it.id ≤ maxItemId items := by
  induction items with
  | nil => simp at h
  | cons a as ih =>
    rw [maxItemId_cons]
    rcases List.mem_cons.mp h with rfl | h'
    · exact le_max_left _ _
    · exact le_trans (ih h') (le_max_right _ _)

/-- C5 counterexample: loading a record with no items into a state whose
counter is `7` leaves the counter at `7`, not `1`, as the claim would
require. -/
theorem loadState_nextItemId_counterexample :
    (loadState emptyInvoiceData { initialState with nextItemId := 7 }).items = [] ∧
    (loadState emptyInvoiceData { initialState with nextItemId := 7 }).nextItemId ≠ 1 := by
  decide

/-- C5 (amended): after `loadState`, the counter equals
`max (loaded item ids) + 1` when the loaded invoice has items and is left
unchanged when it has none; in both cases the next `addItem` assigns an id
distinct from every loaded item id, and concretely loading items with ids
`2` and `9` makes the next added item get id `10`. -/
theorem loadState_nextItemId_spec (d : InvoiceData) (s : AppState) :
    ((loadState d s).items ≠ [] →
      (loadState d s).nextItemId = maxItemId (loadState d s).items + 1) ∧
    ((loadState d s).items = [] → (loadState d s).nextItemId = s.nextItemId) ∧
    (∀ (inp : ItemInput), ∀ it ∈ (loadState d s).items,
      ((addItem inp (loadState d s)).2).id ≠ it.id) ∧
    (∀ inp : ItemInput,
      ((addItem inp (loadState
          { emptyInvoiceData with items := some [mkItem 2, mkItem 9] }
          initialState)).2).id = 10) := by
  have hmain : (loadState d s).items ≠ [] →
      (loadState d s).nextItemId = maxItemId (loadState d s).items + 1 := by
    intro h
    have hlen : 0 < (d.items.getD []).length :=
      List.length_pos.mpr (by simpa [loadState] using h)
    simp [loadState, hlen]
  refine ⟨hmain, ?_, ?_, ?_⟩
  · intro h
    have hlen : (d.items.getD []).length = 0 := by
      rw [List.length_eq_zero]
      simpa [loadState] using h
    simp [loadState, hlen]
  · intro inp it hit
    have hne : (loadState d s).items ≠ [] := by
      intro hc
      rw [hc] at hit
      simp at hit
    have h1 := hmain hne
    have h2 := le_maxItemId _ it hit
    have hid : ((addItem inp (loadState d s)).2).id = (loadState d s).nextItemId := rfl
    omega
  · intro inp
    rfl

/-- Witness for `loadState_nextItemId_spec`: loading items with ids 2 and 9
sets the counter to 10. -/
theorem loadState_nextItemId_spec_witness :
    (loadState { emptyInvoiceData with items := some [mkItem 2, mkItem 9] }
        initialState).nextItemId
      = maxItemId (loadState { emptyInvoiceData with items := some [mkItem 2, mkItem 9] }
          initialState).items + 1 :=
  (loadState_nextItemId_spec
    { emptyInvoiceData with items := some [mkItem 2, mkItem 9] } initialState).1
    (by decide)

/-! ## C8 -/

/-- C8: `addItem` coerces an explicit quantity of `0` to the default `1`
through the falsy fallback, while `updateItem` with quantity `0` stores `0`
— the two operations disagree on whether zero is a preserved quantity. -/
theorem quantity_zero_asymmetry :
    (∀ (s : AppState) (d : Option String) (p : Option ℚ),
      ((addItem ⟨d, some 0, p⟩ s).2).quantity = 1) ∧
    (∀ (s : AppState) (it : Item) (rest : List Item), s.items = it :: rest →
      (updateItem it.id ⟨none, some 0, none⟩ s).items
        = { it with quantity := 0, total := 0 } :: rest) := by
  constructor
  · intro s d p
    simp [addItem, jsNumOr]
  · intro s it rest h
    simp [updateItem, h, updateFirst, applyUpdates]

/-- Witness for `quantity_zero_asymmetry` on concrete states. -/
theorem quantity_zero_asymmetry_witness :
    ((addItem ⟨none, some 0, none⟩ initialState).2).quantity = 1 ∧
    (updateItem (mkItem 2).id ⟨none, some 0, none⟩
        { initialState with items := [mkItem 2] }).items
      = [{ mkItem 2 with quantity := 0, total := 0 }] :=
  ⟨quantity_zero_asymmetry.1 initialState none none,
   quantity_zero_asymmetry.2 { initialState with items := [mkItem 2] }
     (mkItem 2) [] rfl⟩

/-! ## Merge lemmas for importInvoices -/

theorem mergeImported_eq_append (imported : List StoredInvoice) :
    ∀ existing : List StoredInvoice,
      mergeImported existing imported = existing ++ newEntries existing imported := by
  induction imported with
  | nil => intro existing; simp [mergeImported, newEntries]
  | cons imp rest ih =>
    intro existing
    cases hfi : jsFindIndex (fun inv => invNumber inv == invNumber imp) existing with
    | some i =>
      have step : mergeImported existing (imp :: rest) = mergeImported existing rest := by
        simp [mergeImported, hfi]
      rw [step, ih existing]
      simp [newEntries, hfi]
    | none =>
      have step : mergeImported existing (imp :: rest)
          = mergeImported (existing ++ [imp]) rest := by
        simp [mergeImported, hfi]
      rw [step, ih (existing ++ [imp])]
      simp [newEntries, hfi]

theorem jsFindIndex_num_some_mem (n : String) (acc : List StoredInvoice) (i : Nat)
    (hfi : jsFindIndex (fun inv => invNumber inv == n) acc = some i) :
    n ∈ acc.map invNumber := by
  by_contra hc
  rw [← jsFindIndex_num_none_iff n acc] at hc
  simp [hc] at hfi

theorem newEntries_mem (imported : List StoredInvoice) :
    ∀ (acc : List StoredInvoice) (e : StoredInvoice), e ∈ newEntries acc imported →
      e ∈ imported ∧ invNumber e ∉ acc.map invNumber := by
  induction imported with
  | nil =>
    intro acc e he
    simp [newEntries] at he
  | cons imp rest ih =>
    intro acc e he
    cases hfi : jsFindIndex (fun inv => invNumber inv == invNumber imp) acc with
    | some i =>
      simp only [newEntries, hfi] at he
      obtain ⟨h1, h2⟩ := ih acc e he
      exact ⟨List.mem_cons_of_mem imp h1, h2⟩
    | none =>
      simp only [newEntries, hfi] at he
      rcases List.mem_cons.mp he with rfl | he'
      · refine ⟨List.mem_cons_self e rest, ?_⟩
        exact (jsFindIndex_num_none_iff (invNumber e) acc).mp hfi
      · obtain ⟨h1, h2⟩ := ih (acc ++ [imp]) e he'
        refine ⟨List.mem_cons_of_mem imp h1, fun hc => h2 ?_⟩
        simp [List.map_append]
        exact Or.inl (by simpa using hc)

theorem newEntries_covers (imported : List StoredInvoice) :
    ∀ (acc : List StoredInvoice) (e : StoredInvoice), e ∈ imported →
      invNumber e ∉ acc.map invNumber →
      invNumber e ∈ (acc ++ newEntries acc imported).map invNumber := by
  induction imported with
  | nil =>
    intro acc e he _
    simp at he
  | cons imp rest ih =>
    intro acc e he hnot
    cases hfi : jsFindIndex (fun inv => invNumber inv == invNumber imp) acc with
    | some i =>
      have himpacc := jsFindIndex_num_some_mem (invNumber imp) acc i hfi
      rcases List.mem_cons.mp he with rfl | he'
      · exact absurd himpacc hnot
      · simp only [newEntries, hfi]
        exact ih acc e he' hnot
    | none =>
      simp only [newEntries, hfi]
      rcases List.mem_cons.mp he with rfl | he'
      · simp [List.map_append]
      · by_cases hacc' : invNumber e ∈ (acc ++ [imp]).map invNumber
        · have heq : invNumber e = invNumber imp := by
            simp only [List.map_append, List.mem_append, List.map_cons, List.map_nil,
              List.mem_singleton] at hacc'
            rcases hacc' with hc | hc
            · exact absurd hc hnot
            · exact hc
          simp [List.map_append, heq]
        · have hres := ih (acc ++ [imp]) e he' hacc'
          simpa [List.append_assoc] using hres

theorem newEntries_find (imported : List StoredInvoice) :
    ∀ (acc : List StoredInvoice) (n : String), n ∉ acc.map invNumber →
      (newEntries acc imported).find? (fun e => invNumber e == n)
        = imported.find? (fun e => invNumber e == n) := by
  induction imported with
  | nil =>
    intro acc n _
    simp [newEntries]
  | cons imp rest ih =>
    intro acc n h
    cases hfi : jsFindIndex (fun inv => invNumber inv == invNumber imp) acc with
    | some i =>
      have himpacc := jsFindIndex_num_some_mem (invNumber imp) acc i hfi
      have hne : (invNumber imp == n) = false :=
        beq_eq_false_iff_ne.mpr (fun hc => h (hc ▸ himpacc))
      simp only [newEntries, hfi]
      rw [ih acc n h, List.find?_cons, hne]
    | none =>
      simp only [newEntries, hfi]
      cases himp : invNumber imp == n with
      | true =>
        simp [List.find?_cons, himp]
      | false =>
        have hacc' : n ∉ (acc ++ [imp]).map invNumber := by
          simp only [List.map_append, List.mem_append, List.map_cons, List.map_nil,
            List.mem_singleton]
          rintro (hc | hc)
          · exact h hc
          · exact (beq_eq_false_iff_ne.mp himp) hc.symm
        rw [List.find?_cons, himp, List.find?_cons, himp, ih (acc ++ [imp]) n hacc']

theorem newEntries_count (imported : List StoredInvoice) :
    ∀ (acc : List StoredInvoice) (n : String), n ∉ acc.map invNumber →
      ((newEntries acc imported).map invNumber).count n
        = min 1 ((imported.map invNumber).count n) := by
  induction imported with
  | nil =>
    intro acc n _
    simp [newEntries]
  | cons imp rest ih =>
    intro acc n h
    cases hfi : jsFindIndex (fun inv => invNumber inv == invNumber imp) acc with
    | some i =>
      have himpacc := jsFindIndex_num_some_mem (invNumber imp) acc i hfi
      have hne : invNumber imp ≠ n := fun hc => h (hc ▸ himpacc)
      simp only [newEntries, hfi, List.map_cons]
      rw [ih acc n h, List.count_cons]
      simp [hne]
    | none =>
      cases himp : invNumber imp == n with
      | true =>
        have himpn : invNumber imp = n := beq_iff_eq.mp himp
        have hzero : ((newEntries (acc ++ [imp]) rest).map invNumber).count n = 0 := by
          rw [List.count_eq_zero]
          intro hc
          rcases List.mem_map.mp hc with ⟨e, he, hen⟩
          have h2 := (newEntries_mem rest (acc ++ [imp]) e he).2
          apply h2
          simp only [List.map_append, List.mem_append, List.map_cons, List.map_nil,
            List.mem_singleton]
          exact Or.inr (hen.trans himpn.symm)
        simp only [newEntries, hfi, List.map_cons]
        rw [List.count_cons, hzero, List.count_cons]
        simp [himpn]
      | false =>
        have himpn : invNumber imp ≠ n := beq_eq_false_iff_ne.mp himp
        have hacc' : n ∉ (acc ++ [imp]).map invNumber := by
          simp only [List.map_append, List.mem_append, List.map_cons, List.map_nil,
            List.mem_singleton]
          rintro (hc | hc)
          · exact h hc
          · exact himpn hc.symm
        simp only [newEntries, hfi, List.map_cons]
        rw [List.count_cons, List.count_cons, ih (acc ++ [imp]) n hacc']
        simp [himpn]

theorem find?_append_of_none {α : Type} (p : α → Bool) (l₁ l₂ : List α)
    (h : l₁.find? p = none) : (l₁ ++ l₂).find? p = l₂.find? p := by
  induction l₁ with
  | nil => simp
  | cons a as ih =>
    have hpa : ¬ p a := by
      have := List.find?_eq_none.mp h a (List.mem_cons_self a as)
      simpa using this
    have has : as.find? p = none := by
      rw [List.find?_eq_none]
      intro x hx
      exact List.find?_eq_none.mp h x (List.mem_cons_of_mem a hx)
    rw [List.cons_append, List.find?_cons]
    simp only [hpa, Bool.false_eq_true, if_false]
    exact ih has

/-! ## C6 -/

/-- C6: a non-array import payload fails with the `Invalid file format` error
and leaves the stored collection untouched; an array payload appends exactly
the entries whose invoice number is not already present (existing data wins
on conflict), and every imported entry with a new number ends up represented
in the merged collection. -/
theorem importInvoices_spec (existing imported : List StoredInvoice) :
    importInvoices .nonArray existing = .error "Invalid file format" ∧
    importResultStore .nonArray existing = getAllInvoices existing ∧
    importInvoices (.array imported) existing
      = .ok (getAllInvoices existing ++ newEntries existing imported) ∧
    (∀ e ∈ newEntries existing imported,
      e ∈ imported ∧ invNumber e ∉ (getAllInvoices existing).map invNumber) ∧
    (∀ e ∈ imported, invNumber e ∉ (getAllInvoices existing).map invNumber →
      invNumber e ∈ (importResultStore (.array imported) existing).map invNumber) := by
  refine ⟨rfl, rfl, ?_, ?_, ?_⟩
  · rw [getAllInvoices]
    simp only [importInvoices, mergeImported_eq_append imported existing]
  · intro e he
    exact newEntries_mem imported existing e he
  · intro e he hn
    have hres := newEntries_covers imported existing e he
      (by simpa [getAllInvoices] using hn)
    simpa [importResultStore, importInvoices,
      mergeImported_eq_append imported existing] using hres

/-- Witness for `importInvoices_spec`: one conflicting and one new imported
entry over a one-entry store. -/
theorem importInvoices_spec_witness :
    importInvoices .nonArray [mkStored "INV-001"] = .error "Invalid file format" ∧
    importResultStore .nonArray [mkStored "INV-001"]
      = getAllInvoices [mkStored "INV-001"] ∧
    invNumber (mkStored "INV-002")
      ∈ (importResultStore (.array [mkStored "INV-001", mkStored "INV-002"])
          [mkStored "INV-001"]).map invNumber :=
  ⟨(importInvoices_spec [mkStored "INV-001"]
      [mkStored "INV-001", mkStored "INV-002"]).1,
   (importInvoices_spec [mkStored "INV-001"]
      [mkStored "INV-001", mkStored "INV-002"]).2.1,
   (importInvoices_spec [mkStored "INV-001"]
      [mkStored "INV-001", mkStored "INV-002"]).2.2.2.2 (mkStored "INV-002")
     (by decide) (by decide)⟩

/-! ## C10 -/

/-- C10: for a number `n` not present locally, looking `n` up after an import
returns the FIRST imported entry with that number, and `n` occurs in the
merged collection exactly `min 1 (count of n in the import)` times — later
in-file duplicates are skipped because each entry is checked against the
merged collection that already holds earlier appended imports. -/
theorem importInvoices_first_duplicate_wins (existing imported : List StoredInvoice)
    (n : String) (hn : n ∉ (getAllInvoices existing).map invNumber) :
    getInvoice n (importResultStore (.array imported) existing)
      = imported.find? (fun e => invNumber e == n) ∧
    ((importResultStore (.array imported) existing).map invNumber).count n
      = min 1 ((imported.map invNumber).count n) := by
  have hn' : n ∉ existing.map invNumber := by simpa [getAllInvoices] using hn
  have hres : importResultStore (.array imported) existing
      = existing ++ newEntries existing imported := by
    simp [importResultStore, importInvoices, mergeImported_eq_append imported existing]
  constructor
  · rw [hres, getInvoice]
    have hnone : existing.find? (fun e => invNumber e == n) = none := by
      rw [List.find?_eq_none]
      intro a ha
      simp only [beq_iff_eq]
      intro hc
      exact hn' (hc ▸ List.mem_map_of_mem invNumber ha)
    rw [find?_append_of_none _ existing _ hnone]
    exact newEntries_find imported existing n hn'
  · rw [hres]
    have hzero : (existing.map invNumber).count n = 0 :=
      List.count_eq_zero.mpr hn'
    rw [List.map_append, List.count_append, hzero,
      newEntries_count imported existing n hn']
    omega

/-- Witness for `importInvoices_first_duplicate_wins`: two imported entries
share the new number `INV-005`; only the first survives. -/
theorem importInvoices_first_duplicate_wins_witness :
    getInvoice "INV-005" (importResultStore
        (.array [⟨mkRecord "INV-005", "T1"⟩, ⟨mkRecord "INV-005", "T2"⟩])
        [mkStored "INV-001"])
      = ([⟨mkRecord "INV-005", "T1"⟩,
          ⟨mkRecord "INV-005", "T2"⟩] : List StoredInvoice).find?
          (fun e => invNumber e == "INV-005") ∧
    ((importResultStore
        (.array [⟨mkRecord "INV-005", "T1"⟩, ⟨mkRecord "INV-005", "T2"⟩])
        [mkStored "INV-001"]).map invNumber).count "INV-005"
      = min 1 ((([⟨mkRecord "INV-005", "T1"⟩,
          ⟨mkRecord "INV-005", "T2"⟩] : List StoredInvoice).map invNumber).count
            "INV-005") :=
  importInvoices_first_duplicate_wins [mkStored "INV-001"]
    [⟨mkRecord "INV-005", "T1"⟩, ⟨mkRecord "INV-005", "T2"⟩] "INV-005" (by decide)
